import Mathlib

/-!
Verification of the cookie-session authentication engine and webhook
signature verifier of this repository.

The webhook signature verifier is embedded from
`packages/api/src/functions/secureHandler.ts`.  The HMAC-SHA-256 primitive
comes from node's `crypto` package (external to this repository), so it is
kept as an explicit function parameter `hmac : String → String → String`;
theorems assume only the properties node guarantees (the hex digest is a
non-empty string of lowercase hex characters).  JavaScript numbers are
modelled as `Nat` (timestamps are non-negative integers well below 2^53,
where JavaScript arithmetic and decimal printing are exact).

The `DbAuthHandler` class itself is not part of the sources (only its test
file `DbAuthHandler.test.js` is), so its operations are modelled from the
spec, as marked on each definition.
-/

/-! ### Character and decimal-digit helpers -/

/-- A decimal digit character, `0`-`9` (what the JavaScript regex class `\d`
matches). -/
def isDigitChar (c : Char) : Bool :=
  48 ≤ c.toNat ∧ c.toNat ≤ 57

/-- A lowercase hex digit character (what the regex class `[\da-f]`
matches). -/
def isHexChar (c : Char) : Bool :=
  (48 ≤ c.toNat ∧ c.toNat ≤ 57) ∨ (97 ≤ c.toNat ∧ c.toNat ≤ 102)

/-- The character for a decimal digit value. -/
def digitChar (d : Nat) : Char :=
  Char.ofNat (48 + d)

/-- Fuel-driven decimal printer, most significant digit first (the digits of
`n` are prepended to `acc`).  Any `fuel ≥ n` suffices. -/
def natToDigitsCore : Nat → Nat → List Char → List Char
  | 0, _, acc => acc
  | fuel + 1, n, acc =>
    if n < 10 then digitChar n :: acc
    else natToDigitsCore fuel (n / 10) (digitChar (n % 10) :: acc)

/-- The decimal digit characters of `n`, as JavaScript `String(n)` renders a
non-negative integer. -/
def natStr (n : Nat) : List Char :=
  natToDigitsCore (n + 1) n []

/-- The decimal rendering of `n` as a `String`. -/
def natStrS (n : Nat) : String :=
  String.mk (natStr n)

/-- Numeric value of a list of decimal digit characters (what JavaScript
`Number` returns on a string of digits). -/
def digitsToNat (l : List Char) : Nat :=
  l.foldl (fun a c => a * 10 + (c.toNat - 48)) 0

theorem natToDigitsCore_append (fuel n : Nat) :
    ∀ acc, natToDigitsCore fuel n acc = natToDigitsCore fuel n [] ++ acc := by
  induction fuel generalizing n with
  | zero => intro acc; simp [natToDigitsCore]
  | succ fuel ih =>
    intro acc
    by_cases h : n < 10
    · simp [natToDigitsCore, h]
    · simp only [natToDigitsCore, if_neg h]
      rw [ih (n / 10) (digitChar (n % 10) :: acc),
        ih (n / 10) [digitChar (n % 10)], List.append_assoc]
      rfl

theorem natStr_ne_nil (n : Nat) : natStr n ≠ [] := by
  unfold natStr natToDigitsCore
  by_cases h : n < 10
  · simp [h]
  · simp only [if_neg h]
    rw [natToDigitsCore_append]
    simp

theorem digitChar_toNat {d : Nat} (h : d < 10) : (digitChar d).toNat = 48 + d := by
  interval_cases d <;> decide

theorem isDigitChar_digitChar {d : Nat} (h : d < 10) : isDigitChar (digitChar d) = true := by
  interval_cases d <;> decide

theorem natToDigitsCore_digits (fuel : Nat) :
    ∀ n acc, n ≤ fuel → (∀ c ∈ acc, isDigitChar c = true) →
      ∀ c ∈ natToDigitsCore fuel n acc, isDigitChar c = true := by
  induction fuel with
  | zero => intro n acc _ hacc; simpa [natToDigitsCore] using hacc
  | succ fuel ih =>
    intro n acc hn hacc
    by_cases h : n < 10
    · simp only [natToDigitsCore, if_pos h]
      intro c hc
      rcases List.mem_cons.mp hc with rfl | hc
      · exact isDigitChar_digitChar h
      · exact hacc c hc
    · simp only [natToDigitsCore, if_neg h]
      refine ih (n / 10) _ ?_ ?_
      · have h10 : 10 ≤ n := Nat.le_of_not_lt h
        have : n / 10 < n := Nat.div_lt_self (by omega) (by omega)
        omega
      · intro c hc
        rcases List.mem_cons.mp hc with rfl | hc
        · exact isDigitChar_digitChar (Nat.mod_lt _ (by omega))
        · exact hacc c hc

theorem natStr_digits (n : Nat) : ∀ c ∈ natStr n, isDigitChar c = true :=
  natToDigitsCore_digits (n + 1) n [] (Nat.le_succ n) (by simp)

theorem digitsToNat_natToDigitsCore (fuel : Nat) :
    ∀ n, n ≤ fuel → digitsToNat (natToDigitsCore fuel n []) = n := by
  induction fuel with
  | zero =>
    intro n hn
    have h0 : n = 0 := Nat.le_zero.mp hn
    subst h0
    rfl
  | succ fuel ih =>
    intro n hn
    by_cases h : n < 10
    · simp only [natToDigitsCore, if_pos h]
      simp [digitsToNat, digitChar_toNat h]
    · simp only [natToDigitsCore, if_neg h]
      rw [natToDigitsCore_append]
      have h10 : 10 ≤ n := Nat.le_of_not_lt h
      have hlt : n / 10 < n := Nat.div_lt_self (by omega) (by omega)
      have hrec := ih (n / 10) (by omega)
      simp only [digitsToNat] at hrec ⊢
      rw [List.foldl_append, hrec]
      have hd := digitChar_toNat (Nat.mod_lt n (show 0 < 10 by omega))
      simp [List.foldl, hd]
      omega

theorem digitsToNat_natStr (n : Nat) : digitsToNat (natStr n) = n :=
  digitsToNat_natToDigitsCore (n + 1) n (Nat.le_succ n)

/-! ### takeWhile and dropWhile helpers -/

theorem takeWhile_all {p : Char → Bool} :
    ∀ {xs : List Char}, (∀ c ∈ xs, p c = true) → xs.takeWhile p = xs := by
  intro xs
  induction xs with
  | nil => intro _; rfl
  | cons a l ih =>
    intro h
    rw [List.takeWhile_cons_of_pos (h a (List.mem_cons_self a l))]
    rw [ih (fun c hc => h c (List.mem_cons_of_mem a hc))]

theorem takeWhile_append_stop {p : Char → Bool} {y : Char} (hy : p y = false) :
    ∀ {xs : List Char} (ys : List Char), (∀ c ∈ xs, p c = true) →
      (xs ++ y :: ys).takeWhile p = xs := by
  intro xs
  induction xs with
  | nil =>
    intro ys _
    simp [List.takeWhile_cons, hy]
  | cons a l ih =>
    intro ys h
    rw [List.cons_append, List.takeWhile_cons_of_pos (h a (List.mem_cons_self a l))]
    rw [ih ys (fun c hc => h c (List.mem_cons_of_mem a hc))]

theorem dropWhile_append_stop {p : Char → Bool} {y : Char} (hy : p y = false) :
    ∀ {xs : List Char} (ys : List Char), (∀ c ∈ xs, p c = true) →
      (xs ++ y :: ys).dropWhile p = y :: ys := by
  intro xs
  induction xs with
  | nil =>
    intro ys _
    simp [List.dropWhile_cons, hy]
  | cons a l ih =>
    intro ys h
    rw [List.cons_append, List.dropWhile_cons_of_pos (h a (List.mem_cons_self a l))]
    exact ih ys (fun c hc => h c (List.mem_cons_of_mem a hc))

/-- `String.append` acts as list append on the character data. -/
theorem strData_append (s t : String) : (s ++ t).data = s.data ++ t.data := rfl

/-! ### Webhook signature verifier (`packages/api/src/functions/secureHandler.ts`) -/

/-- `const ERROR_MESSAGE`: the single message carried by every
`ForbiddenError` the webhook verifier throws (secureHandler.ts line 16). -/
def ERROR_MESSAGE : String := "You don't have access to invoke this function."

/-- `const FIVE_MINUTES = 5 * 60 * 1000` (secureHandler.ts line 21). -/
def FIVE_MINUTES : Nat := 5 * 60 * 1000

/-- `const DEFAULT_TOLERANCE = FIVE_MINUTES` (secureHandler.ts line 26). -/
def DEFAULT_TOLERANCE : Nat := FIVE_MINUTES

/-- `export const WEBHOOK_SIGNTAURE_HEADER = 'RW-WEBHOOK-SIGNATURE'`
(secureHandler.ts line 36; the misspelling is the source's). -/
def WEBHOOK_SIGNTAURE_HEADER : String := "RW-WEBHOOK-SIGNATURE"

/-- `VerifyOptions` (secureHandler.ts lines 46-49): optional tolerance and
timestamp, both in milliseconds. -/
structure VerifyOptions where
  tolerance : Option Nat
  timestamp : Option Nat

/-- One attempt of the JavaScript regex `/t=(\d+),v1=([\da-f]+)/` at the
head of `l`: literal `t=`, then a maximal non-empty digit run, then the
literal `,v1=`, then a maximal non-empty lowercase-hex run.  The pattern
needs no backtracking: a shorter digit run would end on a digit, which can
never match the following literal comma, and the hex run ends the pattern. -/
def matchSigAt (l : List Char) : Option (List Char × List Char) :=
  match l with
  | c1 :: c2 :: rest =>
    if c1 = 't' ∧ c2 = '=' then
      if rest.takeWhile isDigitChar = [] then none
      else
        match rest.dropWhile isDigitChar with
        | c3 :: c4 :: c5 :: c6 :: r2 =>
          if c3 = ',' ∧ c4 = 'v' ∧ c5 = '1' ∧ c6 = '=' then
            if r2.takeWhile isHexChar = [] then none
            else some (rest.takeWhile isDigitChar, r2.takeWhile isHexChar)
          else none
        | _ => none
    else none
  | _ => none

/-- `/t=(\d+),v1=([\da-f]+)/.exec(signature)` (secureHandler.ts line 189):
the leftmost match of the pattern anywhere in the string; the regex is not
anchored.  Returns the two capture groups (digit run, hex run). -/
def findSigMatch : List Char → Option (List Char × List Char)
  | [] => none
  | c :: cs =>
    match matchSigAt (c :: cs) with
    | some r => some r
    | none => findSigMatch cs

/-- `sign({ body, secret, timestamp })` (secureHandler.ts lines 105-118).
`getHmac` (lines 61-65) throws `ForbiddenError(ERROR_MESSAGE)` on an empty
secret; otherwise the header is
`t=<timestamp>,v1=<hmac-sha256(secret, timestamp + '.' + body)>`. -/
def sign (hmac : String → String → String) (body secret : String)
    (timestamp : Nat) : Except String String :=
  if secret = "" then .error ERROR_MESSAGE
  else .ok ("t=" ++ natStrS timestamp ++ ",v1=" ++
    hmac secret (natStrS timestamp ++ "." ++ body))

/-- `verifySignature({ body, secret, signature, options })`
(secureHandler.ts lines 178-214).  `now` stands for `Date.now()`, used only
when `options.timestamp` is absent.  The source's locals are inlined:
`signedStamp = Number(match[1])` is `digitsToNat ds`,
`timestamp = options.timestamp ?? Date.now()`,
`tolerance = options.tolerance ?? DEFAULT_TOLERANCE`,
`difference = Math.abs(timestamp - signedStamp)`.  Order of checks as in
the source: regex parse, timestamp tolerance, `getHmac`'s empty-secret
check, digest comparison (the recomputed digest uses the re-stringified
`signedStamp`, as `signedStamp + '.' + body` does).  Every failure is
`ForbiddenError(ERROR_MESSAGE)`. -/
def verifySignature (hmac : String → String → String) (now : Nat)
    (body secret signature : String) (options : VerifyOptions) :
    Except String Bool :=
  match findSigMatch signature.data with
  | none => .error ERROR_MESSAGE
  | some (ds, hs) =>
    if ((options.timestamp.getD now : Int) - (digitsToNat ds : Int)).natAbs >
        options.tolerance.getD DEFAULT_TOLERANCE then .error ERROR_MESSAGE
    else if secret = "" then .error ERROR_MESSAGE
    else if hmac secret (natStrS (digitsToNat ds) ++ "." ++ body) = String.mk hs
      then .ok true
    else .error ERROR_MESSAGE

/-- Lowercasing over the character data, as `toLocaleLowerCase` acts on the
ASCII header-name constant. -/
def toLowerStr (s : String) : String :=
  String.mk (s.data.map Char.toLower)

/-- A Lambda event as the webhook verifier consumes it: an optional raw
body and a header map. -/
structure WebhookEvent where
  body : Option String
  headers : List (String × String)

/-- Case-sensitive header lookup (JavaScript property access on the parsed
headers object). -/
def headerLookup (l : List (String × String)) (k : String) : Option String :=
  (l.find? (fun kv => decide (kv.1 = k))).map (fun kv => kv.2)

/-- `signatureFromEvent({ event })` (secureHandler.ts lines 77-83): reads
the header at the lowercased `WEBHOOK_SIGNTAURE_HEADER` key. -/
def signatureFromEvent (event : WebhookEvent) : Option String :=
  headerLookup event.headers (toLowerStr WEBHOOK_SIGNTAURE_HEADER)

/-- `verify({ event, options })` (secureHandler.ts lines 132-148):
`body = event.body || ''`, signature from the event headers, secret is the
module-level `WEBHOOK_SECRET` (passed here explicitly).  When the header is
absent, JavaScript passes `undefined` into `verifySignature`, where
`exec` coerces it to the string `"undefined"` (which the regex never
matches); the `getD "undefined"` mirrors that coercion. -/
def verify (hmac : String → String → String) (now : Nat)
    (webhookSecret : String) (event : WebhookEvent)
    (options : VerifyOptions) : Except String Bool :=
  verifySignature hmac now (event.body.getD "") webhookSecret
    ((signatureFromEvent event).getD "undefined") options

/-- The property claimed by the spec for signature headers: the whole
header string is exactly of the form `t=<digits>,v1=<hex>`.  This follows
the spec's words, to be compared with the source's unanchored regex. -/
def exactSignatureForm (s : String) : Bool :=
  match s.data with
  | c1 :: c2 :: rest =>
    if c1 = 't' ∧ c2 = '=' then
      let ds := rest.takeWhile isDigitChar
      match rest.dropWhile isDigitChar with
      | c3 :: c4 :: c5 :: c6 :: r2 =>
        if c3 = ',' ∧ c4 = 'v' ∧ c5 = '1' ∧ c6 = '=' then
          decide (ds ≠ []) && decide (r2 ≠ []) && r2.all isHexChar
        else false
      | _ => false
    else false
  | _ => false

/-- A constant stand-in HMAC used only to instantiate witnesses; its output
is a non-empty lowercase hex string as node's digests are. -/
def constHexHmac : String → String → String := fun _ _ => "deadbeef"

/-! ### Parsing a canonically formed signature header -/

theorem findSigMatch_wellformed (ts : Nat) (hex : List Char)
    (hne : hex ≠ []) (hhex : ∀ c ∈ hex, isHexChar c = true) :
    findSigMatch ("t=" ++ natStrS ts ++ ",v1=" ++ String.mk hex).data =
      some (natStr ts, hex) := by
  have hdata : ("t=" ++ natStrS ts ++ ",v1=" ++ String.mk hex).data =
      't' :: '=' :: (natStr ts ++ ',' :: 'v' :: '1' :: '=' :: hex) := by
    have h1 : "t=".data = ['t', '='] := rfl
    have h2 : ",v1=".data = [',', 'v', '1', '='] := rfl
    have h3 : (natStrS ts).data = natStr ts := rfl
    have h4 : (String.mk hex).data = hex := rfl
    simp [strData_append, h1, h2, h3, h4]
  rw [hdata]
  have hcomma : isDigitChar ',' = false := by decide
  have hds : (natStr ts ++ ',' :: 'v' :: '1' :: '=' :: hex).takeWhile
      isDigitChar = natStr ts :=
    takeWhile_append_stop hcomma _ (natStr_digits ts)
  have hdrop : (natStr ts ++ ',' :: 'v' :: '1' :: '=' :: hex).dropWhile
      isDigitChar = ',' :: 'v' :: '1' :: '=' :: hex :=
    dropWhile_append_stop hcomma _ (natStr_digits ts)
  have hhx : hex.takeWhile isHexChar = hex := takeWhile_all hhex
  simp only [findSigMatch, matchSigAt, hds, hdrop, hhx]
  simp [natStr_ne_nil ts, hne]

/-- Shared round-trip core: verifying the canonical header produced over
`(body, secret, ts)` with check timestamp `ts` succeeds, assuming node's
digest shape (non-empty lowercase hex) and a non-empty secret. -/
theorem verifySignature_canonical (hmac : String → String → String)
    (now : Nat) (body secret : String) (ts : Nat)
    (hne : (hmac secret (natStrS ts ++ "." ++ body)).data ≠ [])
    (hhex : ∀ c ∈ (hmac secret (natStrS ts ++ "." ++ body)).data,
      isHexChar c = true)
    (hsec : secret ≠ "") :
    verifySignature hmac now body secret
      ("t=" ++ natStrS ts ++ ",v1=" ++ hmac secret (natStrS ts ++ "." ++ body))
      ⟨none, some ts⟩ = .ok true := by
  have hmk : hmac secret (natStrS ts ++ "." ++ body) =
      String.mk (hmac secret (natStrS ts ++ "." ++ body)).data := rfl
  have hparse := findSigMatch_wellformed ts
    (hmac secret (natStrS ts ++ "." ++ body)).data hne hhex
  rw [← hmk] at hparse
  unfold verifySignature
  rw [hparse]
  simp only [Option.getD, digitsToNat_natStr]
  rw [if_neg (by simp [DEFAULT_TOLERANCE, FIVE_MINUTES]), if_neg hsec]
  simp

/-! ### Claims about the webhook verifier -/

/-- C2: webhook sign/verify round-trip.  For every body `b`, non-empty
secret `s` and natural-number timestamp `ts`, verifying the signature
produced by `sign` with options carrying the same timestamp returns
`true`.  The digest-shape hypotheses state what node's HMAC-SHA-256 hex
digest always satisfies. -/
theorem c2_sign_verify_roundtrip (hmac : String → String → String)
    (now : Nat) (body secret sig : String) (ts : Nat)
    (hsec : secret ≠ "")
    (hne : (hmac secret (natStrS ts ++ "." ++ body)).data ≠ [])
    (hhex : ∀ c ∈ (hmac secret (natStrS ts ++ "." ++ body)).data,
      isHexChar c = true)
    (hsig : sign hmac body secret ts = .ok sig) :
    verifySignature hmac now body secret sig ⟨none, some ts⟩ = .ok true := by
  have hs : sig = "t=" ++ natStrS ts ++ ",v1=" ++
      hmac secret (natStrS ts ++ "." ++ body) := by
    unfold sign at hsig
    rw [if_neg hsec] at hsig
    exact (Except.ok.inj hsig).symm
  rw [hs]
  exact verifySignature_canonical hmac now body secret ts hne hhex hsec

/-- Witness for C2 at a concrete instance. -/
theorem c2_sign_verify_roundtrip_wit :
    verifySignature constHexHmac 0 "b" "s" "t=100,v1=deadbeef"
      ⟨none, some 100⟩ = .ok true :=
  c2_sign_verify_roundtrip constHexHmac 0 "b" "s" "t=100,v1=deadbeef" 100
    (by decide) (by decide) (by decide) rfl

/-- C4 counterexample: the source regex is not anchored, so a header that
merely CONTAINS a `t=<digits>,v1=<hex>` substring surrounded by other
characters is not rejected: with a matching digest it verifies, instead of
failing with `ForbiddenError` as the claim states. -/
theorem c4_exact_form_cex :
    exactSignatureForm "AAA t=100,v1=deadbeef ZZZ" = false ∧
    verifySignature constHexHmac 0 "b" "s" "AAA t=100,v1=deadbeef ZZZ"
      ⟨none, some 100⟩ = .ok true :=
  ⟨rfl, rfl⟩

/-- C4 (amended): a header in which the regex scan finds no
`t=<digits>,v1=<hex>` match anywhere fails immediately with the
`ForbiddenError` message, before any timestamp or digest check (the result
is the same for every hmac function, clock, body, secret and options). -/
theorem c4_no_match_forbidden (hmac : String → String → String)
    (now : Nat) (body secret sig : String) (opts : VerifyOptions)
    (h : findSigMatch sig.data = none) :
    verifySignature hmac now body secret sig opts = .error ERROR_MESSAGE := by
  unfold verifySignature
  rw [h]

/-- Witness for the amended C4 at a concrete matchless header. -/
theorem c4_no_match_forbidden_wit :
    verifySignature constHexHmac 0 "b" "s" "hello" ⟨none, none⟩ =
      .error ERROR_MESSAGE :=
  c4_no_match_forbidden constHexHmac 0 "b" "s" "hello" ⟨none, none⟩ rfl

/-- C5: replay-window bound.  For a well-formed header whose digest is the
correct HMAC of `<timestamp>.<body>` under a non-empty secret,
verification succeeds exactly when the absolute difference between the
check timestamp and the signed timestamp is at most the tolerance, which
defaults to 300000 ms; beyond the tolerance it fails with
`ForbiddenError`. -/
theorem c5_replay_window (hmac : String → String → String) (now : Nat)
    (body secret digest : String) (sStamp tcheck : Nat) (tol : Option Nat)
    (hsec : secret ≠ "")
    (hd : digest = hmac secret (natStrS sStamp ++ "." ++ body))
    (hne : digest.data ≠ [])
    (hhex : ∀ c ∈ digest.data, isHexChar c = true) :
    DEFAULT_TOLERANCE = 300000 ∧
    (verifySignature hmac now body secret
        ("t=" ++ natStrS sStamp ++ ",v1=" ++ digest) ⟨tol, some tcheck⟩ =
        .ok true ↔
      ((tcheck : Int) - (sStamp : Int)).natAbs ≤ tol.getD DEFAULT_TOLERANCE) ∧
    (((tcheck : Int) - (sStamp : Int)).natAbs > tol.getD DEFAULT_TOLERANCE →
      verifySignature hmac now body secret
        ("t=" ++ natStrS sStamp ++ ",v1=" ++ digest) ⟨tol, some tcheck⟩ =
        .error ERROR_MESSAGE) := by
  have hmk : digest = String.mk digest.data := rfl
  have hparse := findSigMatch_wellformed sStamp digest.data hne hhex
  rw [← hmk] at hparse
  refine ⟨rfl, ?_, ?_⟩
  · unfold verifySignature
    rw [hparse]
    simp only [Option.getD_some, digitsToNat_natStr]
    by_cases hgt : ((tcheck : Int) - (sStamp : Int)).natAbs >
        tol.getD DEFAULT_TOLERANCE
    · rw [if_pos hgt]
      exact iff_of_false (by simp) (by omega)
    · rw [if_neg hgt, if_neg hsec,
        if_pos (show hmac secret _ = String.mk digest.data by rw [← hd])]
      exact iff_of_true rfl (by omega)
  · intro hgt
    unfold verifySignature
    rw [hparse]
    simp only [Option.getD_some, digitsToNat_natStr]
    rw [if_pos hgt]

/-- Witness for C5 at a concrete instance (zero difference, default
tolerance). -/
theorem c5_replay_window_wit :
    DEFAULT_TOLERANCE = 300000 ∧
    (verifySignature constHexHmac 0 "b" "s" "t=100,v1=deadbeef"
        ⟨none, some 100⟩ = .ok true ↔
      ((100 : Int) - (100 : Int)).natAbs ≤
        (none : Option Nat).getD DEFAULT_TOLERANCE) ∧
    (((100 : Int) - (100 : Int)).natAbs >
        (none : Option Nat).getD DEFAULT_TOLERANCE →
      verifySignature constHexHmac 0 "b" "s" "t=100,v1=deadbeef"
        ⟨none, some 100⟩ = .error ERROR_MESSAGE) :=
  c5_replay_window constHexHmac 0 "b" "s" "deadbeef" 100 100 none
    (by decide) rfl (by decide) (by decide)

/-- C6: every failure of `verifySignature` — malformed header, timestamp
outside tolerance, empty secret, or digest mismatch — carries one and the
same `ForbiddenError` message; and with an empty secret the verifier never
succeeds for any body and signature, returning that same error. -/
theorem c6_uniform_error :
    (∀ (hmac : String → String → String) (now : Nat)
      (body secret sig : String) (opts : VerifyOptions) (e : String),
      verifySignature hmac now body secret sig opts = .error e →
        e = ERROR_MESSAGE) ∧
    (∀ (hmac : String → String → String) (now : Nat) (body sig : String)
      (opts : VerifyOptions),
      verifySignature hmac now body "" sig opts = .error ERROR_MESSAGE) := by
  constructor
  · intro hmac now body secret sig opts e h
    unfold verifySignature at h
    split at h
    · exact (Except.error.inj h).symm
    · split at h
      · exact (Except.error.inj h).symm
      · split at h
        · exact (Except.error.inj h).symm
        · split at h
          · cases h
          · exact (Except.error.inj h).symm
  · intro hmac now body sig opts
    unfold verifySignature
    split
    · rfl
    · split
      · rfl
      · rw [if_pos rfl]

/-- Witness for C6: a digest-mismatch failure carries the message, and an
empty secret fails on a well-formed header. -/
theorem c6_uniform_error_wit :
    ERROR_MESSAGE = ERROR_MESSAGE ∧
    verifySignature constHexHmac 0 "b" "" "t=0,v1=ab" ⟨none, some 0⟩ =
      .error ERROR_MESSAGE :=
  ⟨c6_uniform_error.1 constHexHmac 0 "b" "s" "t=0,v1=ab" ⟨none, some 0⟩
      ERROR_MESSAGE rfl,
    c6_uniform_error.2 constHexHmac 0 "b" "t=0,v1=ab" ⟨none, some 0⟩⟩

/-- C10: the event-level `verify` treats a missing body as the empty
string and reads the signature from the lowercased
`rw-webhook-signature` header key: a bodyless event whose header carries a
valid signature over `""` verifies. -/
theorem c10_verify_event_defaults (hmac : String → String → String)
    (now : Nat) (secret sig : String) (ts : Nat) (ev : WebhookEvent)
    (hsec : secret ≠ "")
    (hne : (hmac secret (natStrS ts ++ "." ++ "")).data ≠ [])
    (hhex : ∀ c ∈ (hmac secret (natStrS ts ++ "." ++ "")).data,
      isHexChar c = true)
    (hbody : ev.body = none)
    (hhdr : headerLookup ev.headers "rw-webhook-signature" = some sig)
    (hsig : sign hmac "" secret ts = .ok sig) :
    toLowerStr WEBHOOK_SIGNTAURE_HEADER = "rw-webhook-signature" ∧
    verify hmac now secret ev ⟨none, some ts⟩ = .ok true := by
  refine ⟨rfl, ?_⟩
  unfold verify signatureFromEvent
  have hkey : toLowerStr WEBHOOK_SIGNTAURE_HEADER = "rw-webhook-signature" :=
    rfl
  rw [hkey, hhdr, hbody]
  simp only [Option.getD]
  have hs : sig = "t=" ++ natStrS ts ++ ",v1=" ++
      hmac secret (natStrS ts ++ "." ++ "") := by
    unfold sign at hsig
    rw [if_neg hsec] at hsig
    exact (Except.ok.inj hsig).symm
  rw [hs]
  exact verifySignature_canonical hmac now "" secret ts hne hhex hsec

/-- Witness for C10 at a concrete bodyless event. -/
theorem c10_verify_event_defaults_wit :
    verify constHexHmac 0 "s"
      ⟨none, [("rw-webhook-signature", "t=7,v1=deadbeef")]⟩
      ⟨none, some 7⟩ = .ok true :=
  (c10_verify_event_defaults constHexHmac 0 "s" "t=7,v1=deadbeef" 7
    ⟨none, [("rw-webhook-signature", "t=7,v1=deadbeef")]⟩
    (by decide) (by decide) (by decide) rfl rfl rfl).2

/-! ### Session cookie codec and DbAuth operations

The `DbAuthHandler` implementation is not among the sources (only its test
file is), so the definitions below are modelled from the spec; external
libraries (CryptoJS AES, `JSON`, `jsonwebtoken`, the Prisma adapter) are
abstracted as explicit function parameters. -/

/-- Modelled from the spec: the symmetric cipher encrypting the session
cookie (CryptoJS AES with the configured secret, external to this
repository), abstracted as an encrypt/decrypt pair; `dec` returns `none`
where decryption throws or yields no valid plaintext. -/
structure SymCipher where
  enc : String → String
  dec : String → Option String

/-- Modelled from the spec: the JSON codec for session payloads
(JavaScript `JSON.stringify` and `JSON.parse`, external to this
repository), abstract over the payload type. -/
structure JsonCodec (α : Type) where
  ser : α → String
  parse : String → Option α

/-- Splitting a character list on a separator character, as JavaScript
`String.prototype.split` with a one-character separator (the empty string
splits to one empty part). -/
def splitOnChar (sep : Char) : List Char → List (List Char)
  | [] => [[]]
  | c :: cs =>
    if c = sep then [] :: splitOnChar sep cs
    else
      match splitOnChar sep cs with
      | [] => [[c]]
      | h :: t => (c :: h) :: t

/-- Space-trimming on both ends (the whitespace the cookie parser meets is
the space following the `;` pair separator). -/
def trimSpaces (l : List Char) : List Char :=
  ((l.dropWhile (fun c => c == ' ')).reverse.dropWhile
    (fun c => c == ' ')).reverse

/-- The value part of a cookie pair: everything after the first `=` (empty
when the pair has no `=`). -/
def afterFirstEq (l : List Char) : List Char :=
  match l.dropWhile (fun c => !(c == '=')) with
  | [] => []
  | _ :: rest => rest

/-- Whether a cookie pair's trimmed name is exactly `session`. -/
def isSessionPair (p : List Char) : Bool :=
  decide (trimSpaces (p.takeWhile (fun c => !(c == '='))) = "session".data)

/-- The value of a matched cookie pair; an empty value gives `none`. -/
def cookieValueOfPair (p : List Char) : Option String :=
  if afterFirstEq p = [] then none else some (String.mk (afterFirstEq p))

/-- The `session` pair's value among the split cookie pairs. -/
def cookiePairsLookup (pairs : List (List Char)) : Option String :=
  match pairs.find? isSessionPair with
  | none => none
  | some p => cookieValueOfPair p

/-- Modelled from the spec: `_getSession` locates the `session` cookie
among the `;`-delimited pairs of the cookie header, comparing the trimmed
name exactly; an absent header, an absent pair, or an empty value give
`none`. -/
def sessionCookieValue : Option String → Option String
  | none => none
  | some h => cookiePairsLookup (splitOnChar ';' h.data)

/-- Result of `_decryptSession`: an empty result (no session), a decrypted
payload/CSRF-token pair, or a `SessionDecryptionError`. -/
inductive DecryptResult (α : Type) where
  | empty
  | ok (payload : α) (csrfToken : String)
  | err

/-- Parsing the two parts of the split plaintext: the JSON payload and
the raw CSRF token. -/
def parsePayloadPair (j : JsonCodec α) (data csrf : List Char) :
    DecryptResult α :=
  match j.parse (String.mk data) with
  | none => .err
  | some p => .ok p (String.mk csrf)

/-- Splitting the decrypted plaintext on `;`; fewer than two parts is a
malformed split. -/
def decryptPlain (j : JsonCodec α) (plain : String) : DecryptResult α :=
  match splitOnChar ';' plain.data with
  | data :: csrf :: _ => parsePayloadPair j data csrf
  | _ => .err

/-- Decrypting one session cookie value; a failing decryption is an
error. -/
def decryptCookieValue (c : SymCipher) (j : JsonCodec α) (ct : String) :
    DecryptResult α :=
  match c.dec ct with
  | none => .err
  | some plain => decryptPlain j plain

/-- Modelled from the spec: `_decryptSession` returns an empty result when
there is no session cookie value; otherwise it decrypts the value, splits
the plaintext on the first `;` into the JSON payload and the raw CSRF
token, and parses the JSON; a failing decryption, a split without two
parts, or a failing JSON parse is a `SessionDecryptionError`. -/
def decryptSession (c : SymCipher) (j : JsonCodec α)
    (cookieHeader : Option String) : DecryptResult α :=
  match sessionCookieValue cookieHeader with
  | none => .empty
  | some ct => decryptCookieValue c j ct

/-- Modelled from the spec: `encrypt` serializes the payload to JSON,
joins it with the CSRF token on `;`, and encrypts with the configured
secret. -/
def encryptSession (c : SymCipher) (j : JsonCodec α) (p : α) (t : String) :
    String :=
  c.enc (j.ser p ++ ";" ++ t)

/-- Two-digit zero-padded decimal rendering of an hour or minute count. -/
def twoDigits (n : Nat) : String :=
  if n < 10 then "0" ++ natStrS n else natStrS n

/-- Modelled from the spec and the repository's test file:
`PAST_EXPIRES_DATE` is `new Date(1970, 0, 1).toUTCString()` — local
midnight of Jan 1 1970 rendered in UTC — here a function of the server's
timezone offset west of UTC in minutes (the `getTimezoneOffset`
convention; real offsets lie strictly between -1440 and 1440).  At offset
0 this is the epoch string; the test in `DbAuthHandler.test.js` expects
the offset-480 (UTC-8) value `Thu, 01 Jan 1970 08:00:00 GMT`. -/
def pastExpiresDate (tzOffsetMin : Int) : String :=
  if 0 ≤ tzOffsetMin then
    "Thu, 01 Jan 1970 " ++ twoDigits (tzOffsetMin.toNat / 60) ++ ":" ++
      twoDigits (tzOffsetMin.toNat % 60) ++ ":00 GMT"
  else
    "Wed, 31 Dec 1969 " ++ twoDigits ((1440 + tzOffsetMin).toNat / 60) ++
      ":" ++ twoDigits ((1440 + tzOffsetMin).toNat % 60) ++ ":00 GMT"

/-- Modelled from the spec: the fixed-order session cookie attributes. -/
def cookieAttributes (domain expires : String) : List String :=
  ["Path=/", "Domain=" ++ domain, "HttpOnly", "SameSite=Strict", "Secure",
    "Expires=" ++ expires]

/-- Joining strings on `;`. -/
def joinSemi : List String → String
  | [] => ""
  | [s] => s
  | s :: rest => s ++ ";" ++ joinSemi rest

/-- Modelled from the spec: `_deleteSessionHeader`, the `Set-Cookie` value
with an empty session value and the `PAST_EXPIRES_DATE` expiry. -/
def deleteSessionCookie (domain : String) (tz : Int) : String :=
  "session=;" ++ joinSemi (cookieAttributes domain (pastExpiresDate tz))

/-- Modelled from the spec: `_logoutResponse` returns an empty body — or a
message wrapped in a JSON object — together with the session-deleting
`Set-Cookie` header. -/
def logoutResponse (domain : String) (tz : Int) (message : Option String) :
    String × List (String × String) :=
  (match message with
    | none => ""
    | some m => "\x7b\"message\":\"" ++ m ++ "\"\x7d",
   [("Set-Cookie", deleteSessionCookie domain tz)])

/-- Modelled from the spec: `logout` always succeeds, ignoring the request
event, and returns the logout response with no message. -/
def logout (domain : String) (tz : Int) (_event : Option String) :
    String × List (String × String) :=
  logoutResponse domain tz none

/-- The DbAuth error kinds arising during current-user resolution. -/
inductive AuthError where
  | notLoggedIn
  | userNotFound
  | sessionDecryption

/-- Modelled from the spec: the message each error carries (the
`User not found` message is pinned by the repository's test file). -/
def authErrorMessage : AuthError → String
  | .notLoggedIn => "Not logged in"
  | .userNotFound => "User not found"
  | .sessionDecryption => "Session has potentially been tampered with"

/-- Modelled from the spec: `_getCurrentUser` requires a decrypted session
whose payload holds a user id and resolves the user through the credential
store adapter (external; abstracted as `findById`), failing with
`NotLoggedInError` without a session or id, and with `UserNotFoundError`
when the id resolves to no record.  The store lookup step: -/
def lookupUser (findById : Nat → Option Nat) (i : Nat) :
    Except AuthError Nat :=
  match findById i with
  | none => .error .userNotFound
  | some u => .ok u

/-- Resolving the user from a decrypted payload: a payload without an id
is treated as not logged in. -/
def resolveUser (idOf : α → Option Nat) (findById : Nat → Option Nat)
    (p : α) : Except AuthError Nat :=
  match idOf p with
  | none => .error .notLoggedIn
  | some i => lookupUser findById i

/-- Current-user resolution from the decrypted session. -/
def getCurrentUser (c : SymCipher) (j : JsonCodec α) (idOf : α → Option Nat)
    (findById : Nat → Option Nat) (cookieHeader : Option String) :
    Except AuthError Nat :=
  match decryptSession c j cookieHeader with
  | .empty => .error .notLoggedIn
  | .err => .error .sessionDecryption
  | .ok p _ => resolveUser idOf findById p

/-- Modelled from the spec: `getToken` resolves the current user and signs
a bearer token over the id (`jsonwebtoken` is external; abstracted as
`mkJwt`); a `NotLoggedInError` becomes the empty-body logout response and
every other error becomes the logout response carrying the error message
in a JSON body — never a thrown error. -/
def getToken (c : SymCipher) (j : JsonCodec α) (idOf : α → Option Nat)
    (findById : Nat → Option Nat) (mkJwt : Nat → String) (domain : String)
    (tz : Int) (cookieHeader : Option String) :
    String × List (String × String) :=
  match getCurrentUser c j idOf findById cookieHeader with
  | .ok uid => (mkJwt uid, [])
  | .error .notLoggedIn => logoutResponse domain tz none
  | .error e => logoutResponse domain tz (some (authErrorMessage e))

/-- The inbound request shape the Dispatcher consumes. -/
structure AuthEvent where
  path : String
  queryStringParameters : List (String × String)
  body : String

/-- Modelled from the spec: the trailing path segment after the configured
auth route base, e.g. `.../auth/login` gives `login`; a path equal to the
base, or with no single trailing segment, gives none. -/
def methodFromPath (authBase path : String) : Option String :=
  if path.data.take (authBase.data.length + 1) = authBase.data ++ ['/'] then
    if path.data.drop (authBase.data.length + 1) = [] ∨
        '/' ∈ path.data.drop (authBase.data.length + 1) then none
    else some (String.mk (path.data.drop (authBase.data.length + 1)))
  else none

/-- The left brace character, written by code. -/
def leftBrace : Char := Char.ofNat 123

/-- The right brace character, written by code. -/
def rightBrace : Char := Char.ofNat 125

/-- Scans a JSON string literal body up to the closing quote (no escape
sequences, which method names never need), returning the content and the
rest after the quote. -/
def scanString : List Char → Option (List Char × List Char)
  | [] => none
  | c :: cs =>
    if c = '"' then some ([], cs)
    else
      match scanString cs with
      | some (s, r) => some (c :: s, r)
      | none => none

/-- Fuel-driven parser for the members of a flat JSON object of string
values: quoted key, colon, quoted value, separated by commas, closed by
the final brace. -/
def parsePairsAux : Nat → List Char → Option (List (List Char × List Char))
  | 0, _ => none
  | fuel + 1, l =>
    match l with
    | c :: rest =>
      if c = '"' then
        match scanString rest with
        | some (k, r1) =>
          match r1 with
          | c1 :: c2 :: r2 =>
            if c1 = ':' ∧ c2 = '"' then
              match scanString r2 with
              | some (v, r3) =>
                match r3 with
                | [c3] => if c3 = rightBrace then some [(k, v)] else none
                | c3 :: r4 =>
                  if c3 = ',' then
                    match parsePairsAux fuel r4 with
                    | some kvs => some ((k, v) :: kvs)
                    | none => none
                  else none
                | [] => none
              | none => none
            else none
          | _ => none
        | none => none
      else none
    | [] => none

/-- Modelled from the spec: `JSON.parse` restricted to the flat
string-valued objects the auth request bodies use. -/
def parseFlatJsonObj (s : String) : Option (List (String × String)) :=
  match s.data with
  | [c1, c2] => if c1 = leftBrace ∧ c2 = rightBrace then some [] else none
  | c :: rest =>
    if c = leftBrace then
      match parsePairsAux rest.length rest with
      | some kvs =>
        some (kvs.map (fun kv => (String.mk kv.1, String.mk kv.2)))
      | none => none
    else none
  | _ => none

/-- Modelled from the spec: the `method` field of the JSON request body,
when the body parses as JSON. -/
def methodFromBody (body : String) : Option String :=
  match parseFlatJsonObj body with
  | some kvs => headerLookup kvs "method"
  | none => none

/-- Modelled from the spec: `_getAuthMethod` resolution order, first match
wins — trailing path segment, then the `method` query-string parameter,
then the `method` field of the JSON body. -/
def getAuthMethod (authBase : String) (ev : AuthEvent) : Option String :=
  match methodFromPath authBase ev.path with
  | some m => some m
  | none =>
    match headerLookup ev.queryStringParameters "method" with
    | some m => some m
    | none => methodFromBody ev.body

/-- Modelled from the spec: the Dispatcher fails with a
`method not specified` error when no method resolves. -/
def resolveMethod (authBase : String) (ev : AuthEvent) :
    Except String String :=
  match getAuthMethod authBase ev with
  | none => .error "method not specified"
  | some m => .ok m

/-- Digit-string parser with validation, `none` on empty or non-digit
input. -/
def parseDigits (l : List Char) : Option Nat :=
  if l ≠ [] ∧ l.all isDigitChar then some (digitsToNat l) else none

/-- Characters to comma-separated decimal codes, for the witness cipher. -/
def joinCommaCodes : List Char → List Char
  | [] => []
  | [c] => natStr c.toNat
  | c :: rest => natStr c.toNat ++ ',' :: joinCommaCodes rest

/-- Decodes comma-separated decimal codes back to characters. -/
def decodeParts : List (List Char) → Option (List Char)
  | [] => some []
  | p :: ps =>
    match parseDigits p, decodeParts ps with
    | some n, some rest => some (Char.ofNat n :: rest)
    | _, _ => none

/-- A concrete reversible cipher used in witnesses: each plaintext
character becomes its decimal code, codes joined on commas, so the
ciphertext never contains `;`. -/
def natCipher : SymCipher where
  enc s := String.mk (joinCommaCodes s.data)
  dec s :=
    match decodeParts (splitOnChar ',' s.data) with
    | some l => some (String.mk l)
    | none => none

/-- A concrete JSON codec for string payloads used in witnesses: the
payload is serialized as a quoted JSON string (no escapes). -/
def strCodec : JsonCodec String where
  ser s := "\"" ++ s ++ "\""
  parse s :=
    match s.data with
    | c :: rest =>
      if c = '"' then
        match scanString rest with
        | some (content, []) => some (String.mk content)
        | _ => none
      else none
    | [] => none

/-- A concrete codec for bare numeric payloads used in witnesses. -/
def natJson : JsonCodec Nat where
  ser n := natStrS n
  parse s := parseDigits s.data

/-! ### Splitting and cookie-extraction lemmas -/

theorem strEq_of_data {s t : String} (h : s.data = t.data) : s = t :=
  congrArg String.mk h

theorem splitOnChar_no_sep {sep : Char} :
    ∀ {xs : List Char}, ¬ sep ∈ xs → splitOnChar sep xs = [xs] := by
  intro xs
  induction xs with
  | nil => intro _; rfl
  | cons c cs ih =>
    intro h
    have hc : ¬ c = sep := by
      intro hceq
      exact h (hceq ▸ List.mem_cons_self c cs)
    simp only [splitOnChar, if_neg hc]
    rw [ih (fun hmem => h (List.mem_cons_of_mem c hmem))]

theorem splitOnChar_append {sep : Char} :
    ∀ {xs : List Char} (ys : List Char), ¬ sep ∈ xs →
      splitOnChar sep (xs ++ sep :: ys) = xs :: splitOnChar sep ys := by
  intro xs
  induction xs with
  | nil =>
    intro ys _
    simp [splitOnChar]
  | cons c cs ih =>
    intro ys h
    have hc : ¬ c = sep := by
      intro hceq
      exact h (hceq ▸ List.mem_cons_self c cs)
    simp only [List.cons_append, splitOnChar, if_neg hc, List.append_eq]
    rw [ih ys (fun hmem => h (List.mem_cons_of_mem c hmem))]

theorem sessionCookieValue_single (ct : String)
    (hn : ¬ ';' ∈ ct.data) (hne : ct.data ≠ []) :
    sessionCookieValue (some ("session=" ++ ct)) = some ct := by
  have hdata : ("session=" ++ ct).data = "session".data ++ '=' :: ct.data :=
    rfl
  have hnosep : ¬ ';' ∈ ("session=" ++ ct).data := by
    rw [hdata]
    intro hmem
    rcases List.mem_append.mp hmem with h1 | h2
    · exact absurd h1 (by decide)
    · rcases List.mem_cons.mp h2 with h3 | h4
      · exact absurd h3 (by decide)
      · exact hn h4
  have hkey : (("session=" ++ ct).data).takeWhile (fun c => !(c == '=')) =
      "session".data := by
    rw [hdata]
    exact takeWhile_append_stop (by decide) _ (by decide)
  have hval : afterFirstEq (("session=" ++ ct).data) = ct.data := by
    unfold afterFirstEq
    rw [hdata, dropWhile_append_stop (by decide) _ (by decide)]
  have hfind : List.find? isSessionPair
      (splitOnChar ';' ("session=" ++ ct).data) =
      some (("session=" ++ ct).data) := by
    rw [splitOnChar_no_sep hnosep]
    exact List.find?_cons_of_pos _ (by unfold isSessionPair; rw [hkey]; decide)
  have h1 : sessionCookieValue (some ("session=" ++ ct)) =
      cookiePairsLookup (splitOnChar ';' ("session=" ++ ct).data) := rfl
  have h2 : cookiePairsLookup (splitOnChar ';' ("session=" ++ ct).data) =
      cookieValueOfPair (("session=" ++ ct).data) := by
    unfold cookiePairsLookup
    rw [hfind]
  rw [h1, h2]
  unfold cookieValueOfPair
  rw [hval, if_neg hne]

/-! ### Claims about the session codec and DbAuth verbs -/

/-- C1 counterexample: the plaintext is split on its first `;`, so a
payload whose JSON serialization contains `;` (here the string payload
`a;b`, serialized as a quoted JSON string) does not round-trip: decryption
fails with `SessionDecryptionError` even though the token contains no `;`
and the cipher and JSON codec round-trip perfectly.  The conjuncts verify
every hypothesis of the claim at this instance. -/
theorem c1_session_roundtrip_cex :
    strCodec.parse (strCodec.ser "a;b") = some "a;b" ∧
    (¬ ';' ∈ "tok".data) ∧
    natCipher.dec (natCipher.enc (strCodec.ser "a;b" ++ ";" ++ "tok")) =
      some (strCodec.ser "a;b" ++ ";" ++ "tok") ∧
    (¬ ';' ∈ (natCipher.enc (strCodec.ser "a;b" ++ ";" ++ "tok")).data) ∧
    (natCipher.enc (strCodec.ser "a;b" ++ ";" ++ "tok")).data ≠ [] ∧
    decryptSession natCipher strCodec
      (some ("session=" ++
        natCipher.enc (strCodec.ser "a;b" ++ ";" ++ "tok"))) = .err :=
  ⟨rfl, by decide, rfl, by decide, by decide, rfl⟩

/-- C1 (amended): the session cookie codec round-trips — decrypting the
encryption of `(p, t)` returns exactly `(p, t)` — for every payload whose
JSON serialization contains no `;` and every token containing no `;`,
whenever the cipher and the JSON codec round-trip on the values involved
and the ciphertext is cookie-safe (non-empty, without `;`). -/
theorem c1_session_roundtrip (c : SymCipher) (j : JsonCodec α) (p : α)
    (t : String)
    (hc : c.dec (encryptSession c j p t) = some (j.ser p ++ ";" ++ t))
    (hj : j.parse (j.ser p) = some p)
    (hp : ¬ ';' ∈ (j.ser p).data)
    (ht : ¬ ';' ∈ t.data)
    (hcn : ¬ ';' ∈ (encryptSession c j p t).data)
    (hce : (encryptSession c j p t).data ≠ []) :
    decryptSession c j (some ("session=" ++ encryptSession c j p t)) =
      .ok p t := by
  have h1 : decryptSession c j
      (some ("session=" ++ encryptSession c j p t)) =
      decryptCookieValue c j (encryptSession c j p t) := by
    unfold decryptSession
    rw [sessionCookieValue_single _ hcn hce]
  have h2 : decryptCookieValue c j (encryptSession c j p t) =
      decryptPlain j (j.ser p ++ ";" ++ t) := by
    unfold decryptCookieValue
    rw [hc]
  have hdata : (j.ser p ++ ";" ++ t).data =
      (j.ser p).data ++ ';' :: t.data := by
    simp [strData_append]
  have h3 : decryptPlain j (j.ser p ++ ";" ++ t) =
      parsePayloadPair j (j.ser p).data t.data := by
    unfold decryptPlain
    rw [hdata, splitOnChar_append t.data hp, splitOnChar_no_sep ht]
  have h4 : parsePayloadPair j (j.ser p).data t.data = .ok p t := by
    unfold parsePayloadPair
    rw [show String.mk (j.ser p).data = j.ser p from rfl, hj]
  rw [h1, h2, h3, h4]

/-- Witness for the amended C1 at a concrete payload and token. -/
theorem c1_session_roundtrip_wit :
    decryptSession natCipher strCodec
      (some ("session=" ++ encryptSession natCipher strCodec "ab" "tok")) =
      .ok "ab" "tok" :=
  c1_session_roundtrip natCipher strCodec "ab" "tok" rfl rfl (by decide)
    (by decide) (by decide) (by decide)

/-- C3 counterexample: in the environment of the repository's own test
(timezone offset 480, UTC-8, pinned by the expected header in
`DbAuthHandler.test.js`), logout's `Set-Cookie` carries
`Expires=Thu, 01 Jan 1970 08:00:00 GMT`, not the fixed epoch string the
claim states. -/
theorem c3_logout_expires_cex :
    (logout "site.test" 480 none).2 = [("Set-Cookie",
      "session=;Path=/;Domain=site.test;HttpOnly;SameSite=Strict;Secure;Expires=Thu, 01 Jan 1970 08:00:00 GMT")] ∧
    pastExpiresDate 480 ≠ "Thu, 01 Jan 1970 00:00:00 GMT" :=
  ⟨rfl, by decide⟩

/-- C3 (amended): for every request event, logout returns exactly one
`Set-Cookie` header whose value starts with `session=;` and whose
`Expires` attribute is `new Date(1970, 0, 1).toUTCString()` — a
timezone-dependent value that equals the fixed string
`Thu, 01 Jan 1970 00:00:00 GMT` when the server runs at UTC offset 0. -/
theorem c3_logout_header (domain : String) (tz : Int)
    (event : Option String) :
    (∃ rest, (logout domain tz event).2 =
      [("Set-Cookie", "session=;" ++ rest)]) ∧
    (logout domain tz event).2 = [("Set-Cookie",
      "session=;Path=/;Domain=" ++ domain ++
        ";HttpOnly;SameSite=Strict;Secure;Expires=" ++
        pastExpiresDate tz)] ∧
    pastExpiresDate 0 = "Thu, 01 Jan 1970 00:00:00 GMT" := by
  have hcookie : deleteSessionCookie domain tz =
      "session=;Path=/;Domain=" ++ domain ++
        ";HttpOnly;SameSite=Strict;Secure;Expires=" ++
        pastExpiresDate tz := by
    apply strEq_of_data
    simp only [deleteSessionCookie, cookieAttributes, joinSemi,
      strData_append, List.append_assoc]
    rfl
  refine ⟨⟨joinSemi (cookieAttributes domain (pastExpiresDate tz)), rfl⟩,
    ?_, by decide⟩
  show [("Set-Cookie", deleteSessionCookie domain tz)] = _
  rw [hcookie]

/-- C7: `getToken` never throws — without a session cookie it returns a
response whose body is the empty string, and when the session's user id
does not resolve to a record it returns a success-shaped response whose
body is the JSON object carrying the `User not found` message, not a
thrown error. -/
theorem c7_gettoken_swallows (c : SymCipher) (j : JsonCodec α)
    (idOf : α → Option Nat) (findById : Nat → Option Nat)
    (mkJwt : Nat → String) (domain : String) (tz : Int)
    (hdr : Option String) :
    (sessionCookieValue hdr = none →
      (getToken c j idOf findById mkJwt domain tz hdr).1 = "") ∧
    (∀ p t i, decryptSession c j hdr = .ok p t → idOf p = some i →
      findById i = none →
      (getToken c j idOf findById mkJwt domain tz hdr).1 =
        "\x7b\"message\":\"User not found\"\x7d") := by
  constructor
  · intro h
    have hd : decryptSession c j hdr = .empty := by
      unfold decryptSession
      rw [h]
    have hcur : getCurrentUser c j idOf findById hdr =
        .error .notLoggedIn := by
      unfold getCurrentUser
      rw [hd]
    unfold getToken
    rw [hcur]
    rfl
  · intro p t i hok hid hfind
    have hcur : getCurrentUser c j idOf findById hdr =
        resolveUser idOf findById p := by
      unfold getCurrentUser
      rw [hok]
    have hres : resolveUser idOf findById p = lookupUser findById i := by
      unfold resolveUser
      rw [hid]
    have hlook : lookupUser findById i = .error .userNotFound := by
      unfold lookupUser
      rw [hfind]
    unfold getToken
    rw [hcur, hres, hlook]
    rfl

/-- Witness for C7: no cookie gives the empty body; a session whose id is
unknown to the store gives the JSON message body. -/
theorem c7_gettoken_swallows_wit :
    (getToken natCipher natJson some (fun _ => none) natStrS "site.test" 0
      none).1 = "" ∧
    (getToken natCipher natJson some (fun _ => none) natStrS "site.test" 0
      (some ("session=" ++ natCipher.enc "5;tok"))).1 =
      "\x7b\"message\":\"User not found\"\x7d" :=
  ⟨(c7_gettoken_swallows natCipher natJson some (fun _ => none) natStrS
      "site.test" 0 none).1 rfl,
   (c7_gettoken_swallows natCipher natJson some (fun _ => none) natStrS
      "site.test" 0 (some ("session=" ++ natCipher.enc "5;tok"))).2
      5 "tok" 5 rfl rfl rfl⟩

/-- C8: the Dispatcher resolves the verb name taking, first match wins,
the trailing path segment after the auth route base, then the `method`
query-string parameter, then the `method` field of the JSON body; with
none of the three it fails with the `method not specified` error. -/
theorem c8_method_order (authBase : String) (ev : AuthEvent) :
    (∀ m, methodFromPath authBase ev.path = some m →
      getAuthMethod authBase ev = some m) ∧
    (methodFromPath authBase ev.path = none →
      ∀ m, headerLookup ev.queryStringParameters "method" = some m →
        getAuthMethod authBase ev = some m) ∧
    (methodFromPath authBase ev.path = none →
      headerLookup ev.queryStringParameters "method" = none →
      getAuthMethod authBase ev = methodFromBody ev.body) ∧
    (getAuthMethod authBase ev = none →
      resolveMethod authBase ev = .error "method not specified") := by
  refine ⟨?_, ?_, ?_, ?_⟩
  · intro m h
    unfold getAuthMethod
    rw [h]
  · intro h0 m h
    unfold getAuthMethod
    rw [h0, h]
  · intro h0 h1
    unfold getAuthMethod
    rw [h0, h1]
  · intro h
    unfold resolveMethod
    rw [h]

/-- Witness for C8, replaying the four dispatch tests: method from the
path, from the query string, from the JSON body, and the error case. -/
theorem c8_method_order_wit :
    getAuthMethod "/.redwood/functions/auth"
      ⟨"/.redwood/functions/auth/login", [], ""⟩ = some "login" ∧
    getAuthMethod "/.redwood/functions/auth"
      ⟨"/.redwood/functions/auth", [("method", "logout")], ""⟩ =
      some "logout" ∧
    getAuthMethod "/.redwood/functions/auth"
      ⟨"/.redwood/functions/auth", [], "\x7b\"method\":\"signup\"\x7d"⟩ =
      some "signup" ∧
    resolveMethod "/.redwood/functions/auth"
      ⟨"/.redwood/functions/auth", [], ""⟩ =
      .error "method not specified" :=
  ⟨(c8_method_order "/.redwood/functions/auth"
      ⟨"/.redwood/functions/auth/login", [], ""⟩).1 "login" rfl,
   (c8_method_order "/.redwood/functions/auth"
      ⟨"/.redwood/functions/auth", [("method", "logout")], ""⟩).2.1 rfl
      "logout" rfl,
   ((c8_method_order "/.redwood/functions/auth"
      ⟨"/.redwood/functions/auth", [],
        "\x7b\"method\":\"signup\"\x7d"⟩).2.2.1 rfl rfl).trans rfl,
   (c8_method_order "/.redwood/functions/auth"
      ⟨"/.redwood/functions/auth", [], ""⟩).2.2.2 rfl⟩

/-- C9: `_decryptSession` returns an empty result, without error, when the
cookie header is absent, has no `session` cookie, or the session value is
empty; and when a session value is present but does not decrypt with the
configured secret it fails with `SessionDecryptionError`. -/
theorem c9_decrypt_session_errors (c : SymCipher) (j : JsonCodec α)
    (hdr : Option String) :
    sessionCookieValue none = none ∧
    sessionCookieValue (some "foo=bar") = none ∧
    sessionCookieValue (some "session=") = none ∧
    (sessionCookieValue hdr = none → decryptSession c j hdr = .empty) ∧
    (∀ v, sessionCookieValue hdr = some v → c.dec v = none →
      decryptSession c j hdr = .err) := by
  refine ⟨rfl, rfl, rfl, ?_, ?_⟩
  · intro h
    unfold decryptSession
    rw [h]
  · intro v hv hdec
    have h1 : decryptSession c j hdr = decryptCookieValue c j v := by
      unfold decryptSession
      rw [hv]
    rw [h1]
    unfold decryptCookieValue
    rw [hdec]

/-- Witness for C9: the empty-value cookie gives the empty result and an
undecryptable value gives the decryption error. -/
theorem c9_decrypt_session_errors_wit :
    decryptSession natCipher strCodec (some "session=") = .empty ∧
    decryptSession natCipher strCodec (some "session=xyz") = .err :=
  ⟨(c9_decrypt_session_errors natCipher strCodec (some "session=")).2.2.2.1
      rfl,
   (c9_decrypt_session_errors natCipher strCodec
      (some "session=xyz")).2.2.2.2 "xyz" rfl rfl⟩
